import Mathlib

/-!
Verification development for the `InputManager` input-normalization module
(`src/input.js`) of the NeonParker demo repository.

The JavaScript source is shallowly embedded over `ℝ`:
pure numeric helpers (`clamp`, `lerp`, `normalize2`, `applyDeadzone`) become
Lean functions, the mutable `InputManager` object becomes an explicit
`Manager` state record threaded through the event handlers and `update()`,
DOM listener registration becomes an explicit registry (`DomState`), and the
object allocations performed by `getState()` become explicit allocations in
a small heap model (`Store`).
-/

namespace NeonInput

/-- Planar vector record, embedding the `{x, y}` objects of the source. -/
structure Vec2 where
  x : ℝ
  y : ℝ

/-- Squared Euclidean magnitude of a vector. -/
def magSq (v : Vec2) : ℝ := v.x ^ 2 + v.y ^ 2

/-- Euclidean magnitude (what the spec calls the magnitude of an axis vector). -/
noncomputable def magnitude (v : Vec2) : ℝ := Real.sqrt (magSq v)

/-! ### Utility functions (src/input.js lines 252-272) -/

/-- Source `function clamp(v, a, b) { return Math.max(a, Math.min(b, v)); }` -/
noncomputable def clamp (v a b : ℝ) : ℝ := max a (min b v)

/-- Source `function lerp(a, b, t) { return a + (b - a) * clamp(t, 0, 1); }` -/
noncomputable def lerp (a b t : ℝ) : ℝ := a + (b - a) * clamp t 0 1

/-- Source `Math.sign`: -1 for negatives, 1 for positives, 0 at zero. -/
noncomputable def jsign (v : ℝ) : ℝ := if v < 0 then -1 else if 0 < v then 1 else 0

/-- Source `Math.hypot(x, y)`. -/
noncomputable def hypot (x y : ℝ) : ℝ := Real.sqrt (x ^ 2 + y ^ 2)

/-- Source `Math.atan2(y, x)`, embedded as the argument of the complex number `x + y*I`
(same convention: result in `(-π, π]`, `atan2 0 0 = 0`). -/
noncomputable def atan2 (y x : ℝ) : ℝ := Complex.arg ⟨x, y⟩

/-- Source `function normalize2(x, y)`:
`len = Math.hypot(x, y); if (len < 1e-6) return {x: 0, y: 0};`
`m = 1 / Math.max(1, len); return { x: x * m, y: y * m };` -/
noncomputable def normalize2 (x y : ℝ) : Vec2 :=
  let len := hypot x y
  if len < 0.000001 then ⟨0, 0⟩
  else
    let m := 1 / max 1 len
    ⟨x * m, y * m⟩

/-- Source `function applyDeadzone(v, dz)`:
`s = Math.sign(v); a = Math.abs(v); if (a <= dz) return 0;`
`return s * (a - dz) / (1 - dz);` -/
noncomputable def applyDeadzone (v dz : ℝ) : ℝ :=
  let s := jsign v
  let a := |v|
  if a ≤ dz then 0 else s * (a - dz) / (1 - dz)

/-! ### Manager state (the mutable fields of `InputManager`) -/

/-- The `this._kb` record: `{ x, y, jump, sprint, keys: new Set() }`. -/
structure KBState where
  x : ℝ
  y : ℝ
  jump : Bool
  sprint : Bool
  keys : Finset String

/-- The `this._gp` record: `{ x, y, jump, sprint }`. -/
structure GPState where
  x : ℝ
  y : ℝ
  jump : Bool
  sprint : Bool

/-- The `this._touch` record:
`{ x, y, jump, sprint, active, originX, originY, pointerId }`. -/
structure TouchState where
  x : ℝ
  y : ℝ
  jump : Bool
  sprint : Bool
  active : Bool
  originX : ℝ
  originY : ℝ
  pointerId : Option ℕ

/-- The whole `InputManager` object state: configuration set in the
constructor plus all mutable fields. -/
structure Manager where
  deadzone : ℝ
  smooth : ℝ
  joystickRadius : ℝ
  gamepadIndex : ℕ
  stateAxis : Vec2
  stateJump : Bool
  stateSprint : Bool
  kb : KBState
  gp : GPState
  touch : TouchState
  smoothed : Vec2

/-- The constructor (src/input.js lines 9-27) with the option values already
resolved (`deadzone ?? 0.15` etc. happens at the call site `mkDefault`). -/
def mkManager (deadzone smooth joystickRadius : ℝ) (gamepadIndex : ℕ) : Manager :=
  { deadzone := deadzone
    smooth := smooth
    joystickRadius := joystickRadius
    gamepadIndex := gamepadIndex
    stateAxis := ⟨0, 0⟩
    stateJump := false
    stateSprint := false
    kb := ⟨0, 0, false, false, ∅⟩
    gp := ⟨0, 0, false, false⟩
    touch := ⟨0, 0, false, false, false, 0, 0, none⟩
    smoothed := ⟨0, 0⟩ }

/-- Constructor with all defaults: `new InputManager()`. -/
def mkDefault : Manager := mkManager 0.15 0.2 60 0

/-! ### Keyboard source (lines 72-98) -/

/-- Source `_recalcKeyboardAxes` (lines 92-98): derive the raw direction pair from
the held-key set and unit-circle normalize it. -/
noncomputable def recalcKB (keys : Finset String) : Vec2 :=
  let x : ℝ := (if "d" ∈ keys ∨ "arrowright" ∈ keys then 1 else 0) +
               (if "a" ∈ keys ∨ "arrowleft" ∈ keys then -1 else 0)
  let y : ℝ := (if "w" ∈ keys ∨ "arrowup" ∈ keys then 1 else 0) +
               (if "s" ∈ keys ∨ "arrowdown" ∈ keys then -1 else 0)
  normalize2 x y

/-- The `keydown` handler `_onKeyDown` (lines 73-80); `key` is `e.key`.
The `preventDefault` call is a DOM effect with no manager state. -/
noncomputable def onKeyDown (key : String) (m : Manager) : Manager :=
  let k := key.toLower
  let keys := insert k m.kb.keys
  let n := recalcKB keys
  { m with kb := { m.kb with
      keys := keys, x := n.x, y := n.y
      jump := if k = " " then true else m.kb.jump
      sprint := if k = "shift" then true else m.kb.sprint } }

/-- The `keyup` handler `_onKeyUp` (lines 81-87). -/
noncomputable def onKeyUp (key : String) (m : Manager) : Manager :=
  let k := key.toLower
  let keys := m.kb.keys.erase k
  let n := recalcKB keys
  { m with kb := { m.kb with
      keys := keys, x := n.x, y := n.y
      jump := if k = " " then false else m.kb.jump
      sprint := if k = "shift" then false else m.kb.sprint } }

/-! ### Gamepad source (lines 100-114) -/

/-- One entry of the `navigator.getGamepads()` array: raw axis values and
button pressed flags. -/
structure Gamepad where
  axes : List ℝ
  buttons : List Bool

/-- The result of `navigator.getGamepads?.()`: `none` when the API is
missing, otherwise an array whose entries may be null. -/
abbrev GamepadList := Option (List (Option Gamepad))

/-- The new `this._gp` value computed by `_pollGamepad` (lines 100-114).
Every branch of the source assigns exactly the four `_gp` fields, so the
handler is factored as computing the record then storing it. -/
noncomputable def pollResult (gps : GamepadList) (deadzone : ℝ) (idx : ℕ) : GPState :=
  match gps with
  | none => ⟨0, 0, false, false⟩
  | some l =>
    match l.getD idx none with
    | none => ⟨0, 0, false, false⟩
    | some gp =>
      let rawX := gp.axes.getD 0 0
      let rawY := gp.axes.getD 1 0
      let dzX := applyDeadzone rawX deadzone
      let dzY := applyDeadzone rawY deadzone
      let v := normalize2 dzX (-dzY)
      let jump := gp.buttons.getD 0 false || gp.buttons.getD 1 false
      let sprint := gp.buttons.getD 10 false || gp.buttons.getD 11 false ||
                    gp.buttons.getD 4 false || gp.buttons.getD 5 false
      ⟨v.x, v.y, jump, sprint⟩

/-- Source `_pollGamepad`, storing the polled record into `this._gp`. -/
noncomputable def pollGamepad (gps : GamepadList) (m : Manager) : Manager :=
  { m with gp := pollResult gps m.deadzone m.gamepadIndex }

/-! ### Touch joystick and button handlers (lines 147-201)

Pointer events are modelled by their data: a pointer id (`getPointerId`,
`e.pointerId ?? 0`) and client coordinates (`getPoint`).  The
`_updateStickVisual` and pointer-capture calls are DOM effects with no
manager state. -/

/-- Source `onJoyDown` (lines 147-157). -/
def onJoyDown (pid : ℕ) (px py : ℝ) (m : Manager) : Manager :=
  if m.touch.active then m
  else { m with touch := { m.touch with
          active := true, pointerId := some pid, originX := px, originY := py } }

/-- Source `onJoyMove` (lines 158-173). -/
noncomputable def onJoyMove (pid : ℕ) (px py : ℝ) (m : Manager) : Manager :=
  if m.touch.active = false ∨ some pid ≠ m.touch.pointerId then m
  else
    let dx := px - m.touch.originX
    let dy := py - m.touch.originY
    let angle := atan2 dy dx
    let dist := min (hypot dx dy) m.joystickRadius
    let nx := Real.cos angle * (dist / m.joystickRadius)
    let ny := Real.sin angle * (dist / m.joystickRadius)
    let ax := applyDeadzone nx m.deadzone
    let ay := applyDeadzone (-ny) m.deadzone
    let norm := normalize2 ax ay
    { m with touch := { m.touch with x := norm.x, y := norm.y } }

/-- Source `onJoyUp` (lines 174-181); registered for `pointerup`, `pointercancel`
and `pointerleave` alike. -/
def onJoyUp (pid : ℕ) (m : Manager) : Manager :=
  if m.touch.active = false ∨ some pid ≠ m.touch.pointerId then m
  else { m with touch := { m.touch with
          active := false, pointerId := none, x := 0, y := 0 } }

/-- Source `onJumpDown` (line 189). -/
def onJumpDown (m : Manager) : Manager :=
  { m with touch := { m.touch with jump := true } }

/-- Source `onJumpUp` (line 190); registered for up, cancel and leave. -/
def onJumpUp (m : Manager) : Manager :=
  { m with touch := { m.touch with jump := false } }

/-- Source `onSprintDown` (line 196). -/
def onSprintDown (m : Manager) : Manager :=
  { m with touch := { m.touch with sprint := true } }

/-- Source `onSprintUp` (line 197); registered for up, cancel and leave. -/
def onSprintUp (m : Manager) : Manager :=
  { m with touch := { m.touch with sprint := false } }

/-! ### Combiner, smoother, `update()` and `getState()` (lines 29-64) -/

/-- The predicate of `candidates.find(v => Math.abs(v.x) > 0.001 || Math.abs(v.y) > 0.001)`. -/
def exceedsEps (v : Vec2) : Prop := 0.001 < |v.x| ∨ 0.001 < |v.y|

noncomputable instance (v : Vec2) : Decidable (exceedsEps v) := by
  unfold exceedsEps; infer_instance

/-- The combiner (lines 31-42): `candidates.find` over the literal list
`[touch, gp, kb]` unfolded to its three tests, with the additive clamped
fallback when no candidate passes. -/
noncomputable def selectAxis (touch gp kb : Vec2) : Vec2 :=
  if exceedsEps touch then touch
  else if exceedsEps gp then gp
  else if exceedsEps kb then kb
  else ⟨clamp (touch.x + gp.x + kb.x) (-1) 1, clamp (touch.y + gp.y + kb.y) (-1) 1⟩

/-- The per-call blend factor `1 - Math.pow(1 - this.smooth, 60 / 60)`
(lines 44-45), with `Math.pow` as real exponentiation. -/
noncomputable def blendFactor (smooth : ℝ) : ℝ := 1 - (1 - smooth) ^ ((60 : ℝ) / 60)

/-- The unified public snapshot `{ axis: {x, y}, jump, sprint }`. -/
structure Snapshot where
  axis : Vec2
  jump : Bool
  sprint : Bool

/-- Source `getState()` (lines 58-64) as the pure value it constructs from the
public fields of the manager. -/
def getStateP (m : Manager) : Snapshot :=
  ⟨⟨m.stateAxis.x, m.stateAxis.y⟩, m.stateJump, m.stateSprint⟩

/-- Source `getState()` in state-passing form: the method body contains no
assignment to any manager field, so the manager component is returned
unchanged. -/
def getStateS (m : Manager) : Manager × Snapshot := (m, getStateP m)

/-- Source `update()` (lines 29-56): poll the gamepad, combine the three candidate
vectors, smooth, OR the buttons, publish, and return `this.getState()`.
The polled gamepad array is an explicit input of the call. -/
noncomputable def updateM (gps : GamepadList) (m : Manager) : Manager × Snapshot :=
  let m1 := pollGamepad gps m
  let axis := selectAxis ⟨m1.touch.x, m1.touch.y⟩ ⟨m1.gp.x, m1.gp.y⟩ ⟨m1.kb.x, m1.kb.y⟩
  let sx := lerp m1.smoothed.x axis.x (blendFactor m1.smooth)
  let sy := lerp m1.smoothed.y axis.y (blendFactor m1.smooth)
  let jump := m1.touch.jump || m1.kb.jump || m1.gp.jump
  let sprint := m1.touch.sprint || m1.kb.sprint || m1.gp.sprint
  let m2 := { m1 with
    smoothed := ⟨sx, sy⟩
    stateAxis := ⟨sx, sy⟩
    stateJump := jump
    stateSprint := sprint }
  (m2, getStateP m2)

/-- The spec-simplified smoothing step: identical to `updateM` except that
the blend factor is the configured `smooth` value itself, i.e. the
smoothing is the plain `lerp(smoothed, axis, smooth)`. -/
noncomputable def updateSimple (gps : GamepadList) (m : Manager) : Manager × Snapshot :=
  let m1 := pollGamepad gps m
  let axis := selectAxis ⟨m1.touch.x, m1.touch.y⟩ ⟨m1.gp.x, m1.gp.y⟩ ⟨m1.kb.x, m1.kb.y⟩
  let sx := lerp m1.smoothed.x axis.x m1.smooth
  let sy := lerp m1.smoothed.y axis.y m1.smooth
  let jump := m1.touch.jump || m1.kb.jump || m1.gp.jump
  let sprint := m1.touch.sprint || m1.kb.sprint || m1.gp.sprint
  let m2 := { m1 with
    smoothed := ⟨sx, sy⟩
    stateAxis := ⟨sx, sy⟩
    stateJump := jump
    stateSprint := sprint }
  (m2, getStateP m2)

/-! ### Events and reachable states -/

/-- Every external stimulus the bound manager reacts to. -/
inductive Event where
  | keyDown (k : String)
  | keyUp (k : String)
  | joyDown (pid : ℕ) (px py : ℝ)
  | joyMove (pid : ℕ) (px py : ℝ)
  | joyUp (pid : ℕ)
  | jumpDown
  | jumpUp
  | sprintDown
  | sprintUp
  | update (gps : GamepadList)

/-- State transition for one event (for `update`, the post-call manager). -/
noncomputable def step (e : Event) (m : Manager) : Manager :=
  match e with
  | .keyDown k => onKeyDown k m
  | .keyUp k => onKeyUp k m
  | .joyDown pid px py => onJoyDown pid px py m
  | .joyMove pid px py => onJoyMove pid px py m
  | .joyUp pid => onJoyUp pid m
  | .jumpDown => onJumpDown m
  | .jumpUp => onJumpUp m
  | .sprintDown => onSprintDown m
  | .sprintUp => onSprintUp m
  | .update gps => (updateM gps m).1

/-- Reachable manager states: any constructor options, then any sequence of
events and `update()` calls. -/
inductive Reachable : Manager → Prop where
  | init (deadzone smooth joystickRadius : ℝ) (gamepadIndex : ℕ) :
      Reachable (mkManager deadzone smooth joystickRadius gamepadIndex)
  | step (e : Event) {m : Manager} : Reachable m → Reachable (step e m)

/-! ### Listener registry model for construction and `destroy()`

`addEventListener` / `removeEventListener` calls and element injection are
modelled by an explicit registry.  Removing a DOM element from the document
discards that element together with the listeners attached to it, so
`detachTouchUI` keeps only the window-level registrations; listeners on
`window` are global and survive until explicitly removed. -/

/-- Event targets the manager attaches listeners to. -/
inductive Target where
  | window
  | joystick
  | btnJump
  | btnSprint
deriving DecidableEq

/-- The handler closures created by the manager. -/
inductive Handler where
  | keyDownH
  | keyUpH
  | joyDownH
  | joyMoveH
  | joyUpH
  | jumpDownH
  | jumpUpH
  | sprintDownH
  | sprintUpH
deriving DecidableEq

/-- One registered listener: target, event name, handler. -/
structure Listener where
  target : Target
  event : String
  handler : Handler
deriving DecidableEq

/-- The DOM-visible resources of one manager: its registered listeners,
whether the injected `#touch-ui` container is in the document, and whether
`this._ui` is non-null. -/
structure DomState where
  listeners : List Listener
  uiAttached : Bool
  uiRef : Bool
  styleAttached : Bool
deriving DecidableEq

/-- Source `_bindKeyboard` (lines 88-89): two window listeners. -/
def bindKeyboard (d : DomState) : DomState :=
  { d with listeners := d.listeners ++
      [⟨.window, "keydown", .keyDownH⟩, ⟨.window, "keyup", .keyUpH⟩] }

/-- Source `_setupTouchUI` (lines 116-201) restricted to its resource effects:
when touch is preferred it injects the `#touch-ui` container (with the
joystick and button elements inside it) and registers the joystick,
window-level pointer, and touch-button listeners, in source order; it also
calls `_injectStyles` (lines 214-248), which appends the `#touch-ui-styles`
element to `document.head` (deduplicated by id, hence idempotent). -/
def setupTouchUI (preferTouch : Bool) (d : DomState) : DomState :=
  if preferTouch then
    { d with
      uiAttached := true
      uiRef := true
      styleAttached := true
      listeners := d.listeners ++
        [⟨.joystick, "pointerdown", .joyDownH⟩,
         ⟨.window, "pointermove", .joyMoveH⟩,
         ⟨.window, "pointerup", .joyUpH⟩,
         ⟨.window, "pointercancel", .joyUpH⟩,
         ⟨.window, "pointerleave", .joyUpH⟩,
         ⟨.btnJump, "pointerdown", .jumpDownH⟩,
         ⟨.btnJump, "pointerup", .jumpUpH⟩,
         ⟨.btnJump, "pointercancel", .jumpUpH⟩,
         ⟨.btnJump, "pointerleave", .jumpUpH⟩,
         ⟨.btnSprint, "pointerdown", .sprintDownH⟩,
         ⟨.btnSprint, "pointerup", .sprintUpH⟩,
         ⟨.btnSprint, "pointercancel", .sprintUpH⟩,
         ⟨.btnSprint, "pointerleave", .sprintUpH⟩] }
  else { d with uiRef := false }

/-- Constructor resource effects: `_bindKeyboard()` then
`_setupTouchUI(...)`, starting from an empty registry. -/
def construct (preferTouch : Bool) : DomState :=
  setupTouchUI preferTouch (bindKeyboard ⟨[], false, false, false⟩)

/-- Source `_detachTouchUI` (lines 204-208): `if (!this._ui) return;` then
`this._ui.remove(); this._ui = null;`.  Removing the container removes the
injected elements and the listeners attached to them; window-level
listeners are untouched. -/
def detachTouchUI (d : DomState) : DomState :=
  if d.uiRef then
    { d with
      listeners := d.listeners.filter (fun l => l.target = .window)
      uiAttached := false
      uiRef := false }
  else d

/-- Source `destroy()` (lines 66-70): remove the two keyboard listeners, then
`_detachTouchUI()`. -/
def destroy (d : DomState) : DomState :=
  let l1 := d.listeners.erase ⟨.window, "keydown", .keyDownH⟩
  let l2 := l1.erase ⟨.window, "keyup", .keyUpH⟩
  detachTouchUI { d with listeners := l2 }

/-! ### Heap model for the snapshot copy made by `getState()`

`getState()` (lines 58-64) builds a fresh object literal containing a fresh
`axis` object literal.  The axis objects live in a store of allocated
cells; `this.state.axis` is a reference into that store, and the returned
snapshot carries a reference to a newly allocated cell. -/

/-- A store of allocated `{x, y}` cells, with an allocation bump pointer. -/
structure Store where
  next : ℕ
  mem : ℕ → Vec2

/-- Write one cell. -/
def Store.write (σ : Store) (a : ℕ) (v : Vec2) : Store :=
  { σ with mem := fun b => if b = a then v else σ.mem b }

/-- The public `this.state` with its `axis` as a store reference. -/
structure HManager where
  axisAddr : ℕ
  jump : Bool
  sprint : Bool

/-- A returned snapshot whose `axis` is a store reference. -/
structure HSnapshot where
  axisAddr : ℕ
  jump : Bool
  sprint : Bool

/-- Source `getState()` over the store: read `this.state.axis`, allocate a fresh
`{x: ..., y: ...}` cell holding copies of the two components, and return a
fresh snapshot object referring to it.  No manager field is assigned. -/
def getStateH (m : HManager) (σ : Store) : HManager × Store × HSnapshot :=
  let a := σ.mem m.axisAddr
  let σ1 : Store := ⟨σ.next + 1, fun b => if b = σ.next then ⟨a.x, a.y⟩ else σ.mem b⟩
  (m, σ1, ⟨σ.next, m.jump, m.sprint⟩)

/-! ### Basic lemmas about the utility functions -/

lemma clamp_eq_of_mem {v a b : ℝ} (h1 : a ≤ v) (h2 : v ≤ b) : clamp v a b = v := by
  unfold clamp
  rw [min_eq_right h2, max_eq_right h1]

lemma clamp_mem {v a b : ℝ} (h : a ≤ b) : a ≤ clamp v a b ∧ clamp v a b ≤ b := by
  unfold clamp
  constructor
  · exact le_max_left _ _
  · exact max_le h (min_le_left _ _)

lemma lerp_eq_convex (a b t : ℝ) :
    lerp a b t = (1 - clamp t 0 1) * a + clamp t 0 1 * b := by
  unfold lerp; ring

lemma magSq_nonneg (v : Vec2) : 0 ≤ magSq v := by
  unfold magSq; positivity

/-- The output of `normalize2` always lies in the closed unit disc. -/
lemma normalize2_magSq_le_one (x y : ℝ) : magSq (normalize2 x y) ≤ 1 := by
  unfold normalize2 hypot
  set len := Real.sqrt (x ^ 2 + y ^ 2) with hlen
  by_cases h : len < 0.000001
  · simp [h, magSq]
  · simp only [h, if_false]
    have hxy : (0 : ℝ) ≤ x ^ 2 + y ^ 2 := by positivity
    have hsq : len ^ 2 = x ^ 2 + y ^ 2 := Real.sq_sqrt hxy
    have hmaxpos : (0 : ℝ) < max 1 len := lt_of_lt_of_le one_pos (le_max_left _ _)
    have hle : len ≤ max 1 len := le_max_right _ _
    have hlen0 : 0 ≤ len := Real.sqrt_nonneg _
    show (x * (1 / max 1 len)) ^ 2 + (y * (1 / max 1 len)) ^ 2 ≤ 1
    have key : (x * (1 / max 1 len)) ^ 2 + (y * (1 / max 1 len)) ^ 2 =
        (x ^ 2 + y ^ 2) / (max 1 len) ^ 2 := by
      field_simp
    rw [key, div_le_one (by positivity)]
    calc x ^ 2 + y ^ 2 = len ^ 2 := hsq.symm
    _ ≤ (max 1 len) ^ 2 := by nlinarith

/-- Moving by `lerp` (whose blend is clamped to `[0, 1]`) between two points
of the closed unit disc stays in the closed unit disc. -/
lemma lerp_magSq_le_one {s a : Vec2} (t : ℝ)
    (hs : magSq s ≤ 1) (ha : magSq a ≤ 1) :
    magSq ⟨lerp s.x a.x t, lerp s.y a.y t⟩ ≤ 1 := by
  obtain ⟨h0, h1⟩ := @clamp_mem t 0 1 (by norm_num)
  set u := clamp t 0 1 with hu
  rw [magSq] at hs ha ⊢
  simp only [lerp_eq_convex, ← hu]
  nlinarith [sq_nonneg (s.x - a.x), sq_nonneg (s.y - a.y),
    mul_nonneg h0 (sub_nonneg.2 h1), sq_nonneg (s.x + a.x), sq_nonneg (s.y + a.y)]

/-- The selected candidate of the combiner always lies in the unit disc when
all three candidates do. -/
lemma selectAxis_magSq_le_one {t g k : Vec2}
    (ht : magSq t ≤ 1) (hg : magSq g ≤ 1) (hk : magSq k ≤ 1) :
    magSq (selectAxis t g k) ≤ 1 := by
  unfold selectAxis
  by_cases h1 : exceedsEps t
  · simpa [h1]
  by_cases h2 : exceedsEps g
  · simpa [h1, h2]
  by_cases h3 : exceedsEps k
  · simpa [h1, h2, h3]
  simp only [h1, h2, h3, if_false]
  simp only [exceedsEps, not_or, not_lt, abs_le] at h1 h2 h3
  have hx : clamp (t.x + g.x + k.x) (-1) 1 = t.x + g.x + k.x :=
    clamp_eq_of_mem (by linarith [h1.1.1, h2.1.1, h3.1.1]) (by linarith [h1.1.2, h2.1.2, h3.1.2])
  have hy : clamp (t.y + g.y + k.y) (-1) 1 = t.y + g.y + k.y :=
    clamp_eq_of_mem (by linarith [h1.2.1, h2.2.1, h3.2.1]) (by linarith [h1.2.2, h2.2.2, h3.2.2])
  rw [magSq]
  simp only [hx, hy]
  nlinarith [h1.1.1, h1.1.2, h1.2.1, h1.2.2, h2.1.1, h2.1.2, h2.2.1, h2.2.2,
    h3.1.1, h3.1.2, h3.2.1, h3.2.2]

/-! ### The unit-disc invariant over reachable states -/

/-- All five vector-valued pieces of manager state lie in the closed unit
disc: the three source contributions, the smoothing accumulator, and the
published axis. -/
def Inv (m : Manager) : Prop :=
  magSq ⟨m.touch.x, m.touch.y⟩ ≤ 1 ∧ magSq ⟨m.gp.x, m.gp.y⟩ ≤ 1 ∧
  magSq ⟨m.kb.x, m.kb.y⟩ ≤ 1 ∧ magSq m.smoothed ≤ 1 ∧ magSq m.stateAxis ≤ 1

lemma magSq_zero_le_one : magSq ⟨0, 0⟩ ≤ 1 := by norm_num [magSq]

lemma recalcKB_magSq_le_one (keys : Finset String) : magSq (recalcKB keys) ≤ 1 := by
  unfold recalcKB
  exact normalize2_magSq_le_one _ _

lemma pollResult_magSq_le_one (gps : GamepadList) (dz : ℝ) (i : ℕ) :
    magSq ⟨(pollResult gps dz i).x, (pollResult gps dz i).y⟩ ≤ 1 := by
  cases gps with
  | none => exact magSq_zero_le_one
  | some l =>
    unfold pollResult
    cases hl : l.getD i none with
    | none => simp only [hl]; exact magSq_zero_le_one
    | some gp => simp only [hl]; exact normalize2_magSq_le_one _ _

lemma inv_init (dz sm jr : ℝ) (gi : ℕ) : Inv (mkManager dz sm jr gi) := by
  refine ⟨?_, ?_, ?_, ?_, ?_⟩ <;> exact magSq_zero_le_one

lemma inv_step (e : Event) {m : Manager} (h : Inv m) : Inv (step e m) := by
  obtain ⟨ht, hg, hk, hs, ha⟩ := h
  cases e with
  | keyDown k => exact ⟨ht, hg, recalcKB_magSq_le_one _, hs, ha⟩
  | keyUp k => exact ⟨ht, hg, recalcKB_magSq_le_one _, hs, ha⟩
  | joyDown pid px py =>
    simp only [step, onJoyDown]
    split
    · exact ⟨ht, hg, hk, hs, ha⟩
    · exact ⟨ht, hg, hk, hs, ha⟩
  | joyMove pid px py =>
    simp only [step, onJoyMove]
    split
    · exact ⟨ht, hg, hk, hs, ha⟩
    · exact ⟨normalize2_magSq_le_one _ _, hg, hk, hs, ha⟩
  | joyUp pid =>
    simp only [step, onJoyUp]
    split
    · exact ⟨ht, hg, hk, hs, ha⟩
    · exact ⟨magSq_zero_le_one, hg, hk, hs, ha⟩
  | jumpDown => exact ⟨ht, hg, hk, hs, ha⟩
  | jumpUp => exact ⟨ht, hg, hk, hs, ha⟩
  | sprintDown => exact ⟨ht, hg, hk, hs, ha⟩
  | sprintUp => exact ⟨ht, hg, hk, hs, ha⟩
  | update gps =>
    have hg' := pollResult_magSq_le_one gps m.deadzone m.gamepadIndex
    have haxis := selectAxis_magSq_le_one ht hg' hk
    have hsm := lerp_magSq_le_one (s := m.smoothed)
      (blendFactor m.smooth) hs haxis
    exact ⟨ht, hg', hk, hsm, hsm⟩

lemma reachable_inv {m : Manager} (h : Reachable m) : Inv m := by
  induction h with
  | init dz sm jr gi => exact inv_init dz sm jr gi
  | step e _ ih => exact inv_step e ih

lemma components_le_of_magSq_le_one {v : Vec2} (h : magSq v ≤ 1) :
    -1 ≤ v.x ∧ v.x ≤ 1 ∧ -1 ≤ v.y ∧ v.y ≤ 1 := by
  rw [magSq] at h
  refine ⟨by nlinarith [sq_nonneg v.y], by nlinarith [sq_nonneg v.y],
    by nlinarith [sq_nonneg v.x], by nlinarith [sq_nonneg v.x]⟩

lemma magnitude_le_one {v : Vec2} (h : magSq v ≤ 1) : magnitude v ≤ 1 := by
  unfold magnitude
  rw [Real.sqrt_le_left zero_le_one]
  simpa using h

/-! ### Claim-supporting lemmas -/

lemma applyDeadzone_closed_form {v dz : ℝ} (hdz : 0 ≤ dz) :
    applyDeadzone v dz = (max 0 (v - dz) - max 0 (-v - dz)) / (1 - dz) := by
  simp only [applyDeadzone, jsign]
  rcases le_or_lt |v| dz with hle | hgt
  · rw [if_pos hle]
    rw [abs_le] at hle
    rw [max_eq_left (by linarith), max_eq_left (by linarith)]
    simp
  · rw [if_neg (not_le.2 hgt)]
    rcases lt_trichotomy v 0 with hneg | hzero | hpos
    · rw [if_pos hneg]
      have hav : |v| = -v := abs_of_neg hneg
      rw [hav] at hgt ⊢
      rw [max_eq_left (by linarith), max_eq_right (by linarith)]
      ring
    · exfalso
      rw [hzero, abs_zero] at hgt
      linarith
    · rw [if_neg (not_lt.2 hpos.le), if_pos hpos]
      have hav : |v| = v := abs_of_pos hpos
      rw [hav] at hgt ⊢
      rw [max_eq_right (by linarith), max_eq_left (by linarith)]
      ring

lemma applyDeadzone_monotone {dz : ℝ} (hdz0 : 0 ≤ dz) (hdz1 : dz < 1) :
    Monotone (fun v => applyDeadzone v dz) := by
  intro v w hvw
  simp only
  rw [applyDeadzone_closed_form hdz0, applyDeadzone_closed_form hdz0,
    div_le_div_iff_of_pos_right (by linarith)]
  have h1 : max 0 (v - dz) ≤ max 0 (w - dz) := max_le_max le_rfl (by linarith)
  have h2 : max 0 (-w - dz) ≤ max 0 (-v - dz) := max_le_max le_rfl (by linarith)
  linarith

lemma applyDeadzone_continuous {dz : ℝ} (hdz0 : 0 ≤ dz) :
    Continuous (fun v => applyDeadzone v dz) := by
  have hfe : (fun v => applyDeadzone v dz) =
      fun v => (max 0 (v - dz) - max 0 (-v - dz)) / (1 - dz) := by
    funext v
    exact applyDeadzone_closed_form hdz0
  rw [hfe]
  apply Continuous.div_const
  exact (continuous_const.max (continuous_id.sub continuous_const)).sub
    (continuous_const.max (continuous_neg.sub continuous_const))

lemma sqrt_two_bounds : 1.414 < Real.sqrt 2 ∧ Real.sqrt 2 < 1.4143 := by
  constructor
  · rw [Real.lt_sqrt (by norm_num)]
    norm_num
  · rw [Real.sqrt_lt' (by norm_num)]
    norm_num

lemma normalize2_one_one : normalize2 1 1 = ⟨1 / Real.sqrt 2, 1 / Real.sqrt 2⟩ := by
  unfold normalize2 hypot
  have h2 : ((1:ℝ) ^ 2 + 1 ^ 2) = 2 := by norm_num
  rw [h2]
  have hb := sqrt_two_bounds
  rw [if_neg (by linarith [hb.1] : ¬ Real.sqrt 2 < 0.000001)]
  rw [max_eq_right (by linarith [hb.1] : (1:ℝ) ≤ Real.sqrt 2)]
  norm_num

lemma recalcKB_wd : recalcKB {"w", "d"} = normalize2 1 1 := by
  unfold recalcKB
  have h1 : ("d" ∈ ({"w", "d"} : Finset String) ∨
      "arrowright" ∈ ({"w", "d"} : Finset String)) := by decide
  have h2 : ¬("a" ∈ ({"w", "d"} : Finset String) ∨
      "arrowleft" ∈ ({"w", "d"} : Finset String)) := by decide
  have h3 : ("w" ∈ ({"w", "d"} : Finset String) ∨
      "arrowup" ∈ ({"w", "d"} : Finset String)) := by decide
  have h4 : ¬("s" ∈ ({"w", "d"} : Finset String) ∨
      "arrowdown" ∈ ({"w", "d"} : Finset String)) := by decide
  rw [if_pos h1, if_neg h2, if_pos h3, if_neg h4]
  norm_num

lemma blendFactor_eq (s : ℝ) : blendFactor s = s := by
  unfold blendFactor
  rw [show ((60:ℝ)/60) = 1 by norm_num, Real.rpow_one]
  ring

lemma exceedsEps_zero : ¬ exceedsEps ⟨0, 0⟩ := by
  simp only [exceedsEps, not_or, not_lt]
  norm_num

lemma selectAxis_zero : selectAxis ⟨0, 0⟩ ⟨0, 0⟩ ⟨0, 0⟩ = ⟨0, 0⟩ := by
  unfold selectAxis
  rw [if_neg exceedsEps_zero, if_neg exceedsEps_zero, if_neg exceedsEps_zero]
  have hc : clamp ((0:ℝ) + 0 + 0) (-1) 1 = 0 := by
    rw [show ((0:ℝ) + 0 + 0) = 0 by ring]
    exact clamp_eq_of_mem (by norm_num) (by norm_num)
  simp only [hc]

/-! ### Claim theorems -/

/-- Claim C2, counterexample: the combiner test is component-wise
(`|x| > 0.001 || |y| > 0.001`), not a Euclidean-magnitude test.  The touch
candidate `(0.0008, 0.0008)` has magnitude `≈ 0.00113 > 0.001`, yet the
combiner skips it and selects the gamepad candidate, so the claim that the
first candidate whose magnitude exceeds 0.001 is selected is false. -/
theorem combiner_magnitude_priority_counterexample :
    0.001 < magnitude ⟨0.0008, 0.0008⟩ ∧
    selectAxis ⟨0.0008, 0.0008⟩ ⟨0.5, 0⟩ ⟨0, 0⟩ = ⟨0.5, 0⟩ ∧
    (⟨0.5, 0⟩ : Vec2) ≠ ⟨0.0008, 0.0008⟩ := by
  refine ⟨?_, ?_, ?_⟩
  · unfold magnitude magSq
    rw [Real.lt_sqrt (by norm_num)]
    norm_num
  · unfold selectAxis
    rw [if_neg (by simp only [exceedsEps, not_or, not_lt]; norm_num [abs_of_pos]),
      if_pos (show exceedsEps ⟨0.5, 0⟩ from Or.inl (by norm_num [abs_of_pos]))]
  · intro h
    have hx := congrArg Vec2.x h
    norm_num at hx

/-- Claim C2 (amended): on every `update()` the three candidates are
inspected in the order touch, gamepad, keyboard, and the first whose x or y
component exceeds 0.001 in absolute value is selected wholesale; in
particular whenever either touch component exceeds 0.001 in absolute value
the selected vector is the touch vector, regardless of the gamepad and
keyboard values. -/
theorem combiner_priority_order (touch gp kb : Vec2) :
    (exceedsEps touch → selectAxis touch gp kb = touch) ∧
    (¬ exceedsEps touch → exceedsEps gp → selectAxis touch gp kb = gp) ∧
    (¬ exceedsEps touch → ¬ exceedsEps gp → exceedsEps kb →
      selectAxis touch gp kb = kb) := by
  unfold selectAxis
  refine ⟨fun h1 => by rw [if_pos h1],
    fun h1 h2 => by rw [if_neg h1, if_pos h2],
    fun h1 h2 h3 => by rw [if_neg h1, if_neg h2, if_pos h3]⟩

/-- Witness for `combiner_priority_order` at a concrete state: touch
`(0.5, 0)` wins over nonzero gamepad `(0.3, 0.3)` and keyboard `(0, 1)`. -/
theorem combiner_priority_order_witness :
    selectAxis ⟨0.5, 0⟩ ⟨0.3, 0.3⟩ ⟨0, 1⟩ = ⟨0.5, 0⟩ :=
  (combiner_priority_order ⟨0.5, 0⟩ ⟨0.3, 0.3⟩ ⟨0, 1⟩).1
    (Or.inl (by norm_num [abs_of_pos]))

/-- Claim C4: the radial deadzone returns 0 at or below the threshold,
rescales by `sign(v) * (|v| - dz) / (1 - dz)` above it, is monotone in `v`,
is continuous at `v = dz` and `v = -dz`, and maps 1 to exactly 1. -/
theorem applyDeadzone_spec (v dz : ℝ) (hv : -1 ≤ v ∧ v ≤ 1)
    (hdz : 0 ≤ dz ∧ dz < 1) :
    (|v| ≤ dz → applyDeadzone v dz = 0) ∧
    (dz < |v| → applyDeadzone v dz = jsign v * (|v| - dz) / (1 - dz)) ∧
    (∀ w, v ≤ w → applyDeadzone v dz ≤ applyDeadzone w dz) ∧
    ContinuousAt (fun u => applyDeadzone u dz) dz ∧
    ContinuousAt (fun u => applyDeadzone u dz) (-dz) ∧
    applyDeadzone 1 dz = 1 := by
  obtain ⟨hdz0, hdz1⟩ := hdz
  refine ⟨?_, ?_, ?_, ?_, ?_, ?_⟩
  · intro h
    simp only [applyDeadzone]
    rw [if_pos h]
  · intro h
    simp only [applyDeadzone]
    rw [if_neg (not_le.2 h)]
  · intro w hw
    exact applyDeadzone_monotone hdz0 hdz1 hw
  · exact (applyDeadzone_continuous hdz0).continuousAt
  · exact (applyDeadzone_continuous hdz0).continuousAt
  · have h1 : ¬(|(1:ℝ)| ≤ dz) := by rw [abs_one]; linarith
    simp only [applyDeadzone, jsign, h1, if_false]
    rw [abs_one]
    norm_num
    rw [div_eq_one_iff_eq (by linarith : (1:ℝ) - dz ≠ 0)]

/-- Witness for `applyDeadzone_spec` at `v = 0.5`, `dz = 0.15`. -/
theorem applyDeadzone_spec_witness :
    ((-1 ≤ (0.5:ℝ) ∧ (0.5:ℝ) ≤ 1) ∧ (0 ≤ (0.15:ℝ) ∧ (0.15:ℝ) < 1)) ∧
    applyDeadzone 1 0.15 = 1 :=
  ⟨⟨⟨by norm_num, by norm_num⟩, ⟨by norm_num, by norm_num⟩⟩,
    (applyDeadzone_spec 0.5 0.15 ⟨by norm_num, by norm_num⟩
      ⟨by norm_num, by norm_num⟩).2.2.2.2.2⟩

/-- The gamepad device is absent: the snapshot API itself is missing, or
the entry at the configured index is null or out of range. -/
def gamepadAbsent (gps : GamepadList) (i : ℕ) : Prop :=
  gps = none ∨ ∃ l, gps = some l ∧ l.getD i none = none

/-- Claim C5: with the provider missing or the device absent, polling
stores the zero vector and both buttons false (and, being a total
function, never throws). -/
theorem pollGamepad_absent_neutral (m : Manager) (gps : GamepadList)
    (h : gamepadAbsent gps m.gamepadIndex) :
    (pollGamepad gps m).gp.x = 0 ∧ (pollGamepad gps m).gp.y = 0 ∧
    (pollGamepad gps m).gp.jump = false ∧
    (pollGamepad gps m).gp.sprint = false := by
  rcases h with h | ⟨l, rfl, hl⟩
  · subst h
    exact ⟨rfl, rfl, rfl, rfl⟩
  · simp only [pollGamepad, pollResult]
    rw [hl]
    exact ⟨rfl, rfl, rfl, rfl⟩

/-- Witness for `pollGamepad_absent_neutral`: missing gamepad API. -/
theorem pollGamepad_absent_neutral_witness :
    gamepadAbsent none mkDefault.gamepadIndex ∧
    (pollGamepad none mkDefault).gp.x = 0 :=
  ⟨Or.inl rfl, (pollGamepad_absent_neutral mkDefault none (Or.inl rfl)).1⟩

/-- Claim C10: `1 - (1 - smooth)^(60/60)` equals `smooth` exactly, so the
smoothing step of `update()` coincides with the plain
`lerp(smoothed, axis, smooth)` variant `updateSimple`. -/
theorem smoothing_blend_refinement (m : Manager) (gps : GamepadList)
    (h : 0 ≤ m.smooth ∧ m.smooth ≤ 1) :
    blendFactor m.smooth = m.smooth ∧ updateM gps m = updateSimple gps m := by
  refine ⟨blendFactor_eq _, ?_⟩
  simp only [updateM, updateSimple, blendFactor_eq]

/-- Witness for `smoothing_blend_refinement` at the default configuration. -/
theorem smoothing_blend_refinement_witness :
    blendFactor mkDefault.smooth = mkDefault.smooth ∧
    updateM none mkDefault = updateSimple none mkDefault :=
  smoothing_blend_refinement mkDefault none
    ⟨by norm_num [mkDefault, mkManager], by norm_num [mkDefault, mkManager]⟩

/-- Claim C3: in every reachable state, the axis of the snapshot returned
by `update()` has both components in `[-1, 1]` and Euclidean magnitude at
most 1. -/
theorem update_axis_in_unit_disc {m : Manager} (h : Reachable m)
    (gps : GamepadList) :
    (-1 ≤ ((updateM gps m).2).axis.x ∧ ((updateM gps m).2).axis.x ≤ 1) ∧
    (-1 ≤ ((updateM gps m).2).axis.y ∧ ((updateM gps m).2).axis.y ≤ 1) ∧
    magnitude ((updateM gps m).2).axis ≤ 1 := by
  have hinv := inv_step (.update gps) (reachable_inv h)
  have hax : magSq ((updateM gps m).2).axis ≤ 1 := hinv.2.2.2.2
  obtain ⟨a, b, c, d⟩ := components_le_of_magSq_le_one hax
  exact ⟨⟨a, b⟩, ⟨c, d⟩, magnitude_le_one hax⟩

/-- Witness for `update_axis_in_unit_disc` at the freshly constructed
manager with no gamepad API. -/
theorem update_axis_in_unit_disc_witness :
    magnitude ((updateM none mkDefault).2).axis ≤ 1 :=
  (update_axis_in_unit_disc (Reachable.init 0.15 0.2 60 0) none).2.2

/-- Claim C6: while a touch session is active a second pointer-down leaves
the whole manager (in particular the `TouchSession` fields `active`,
`pointerId`, `originX`, `originY`) unchanged, and move/up/cancel/leave
events carrying a different pointer id than the tracked one are no-ops, so
at most one joystick drag session is ever active. -/
theorem touch_single_session (m : Manager) (pid : ℕ) (px py : ℝ) :
    (m.touch.active = true → onJoyDown pid px py m = m) ∧
    (some pid ≠ m.touch.pointerId →
      onJoyMove pid px py m = m ∧ onJoyUp pid m = m) := by
  constructor
  · intro h
    unfold onJoyDown
    rw [if_pos h]
  · intro h
    constructor
    · unfold onJoyMove
      rw [if_pos (Or.inr h)]
    · unfold onJoyUp
      rw [if_pos (Or.inr h)]

/-- Witness for `touch_single_session`: after a pointer-down with id 1, a
second pointer-down and a move with id 2 are both no-ops. -/
theorem touch_single_session_witness :
    (onJoyDown 1 5 5 mkDefault).touch.active = true ∧
    onJoyDown 2 0 0 (onJoyDown 1 5 5 mkDefault) = onJoyDown 1 5 5 mkDefault ∧
    onJoyMove 2 0 0 (onJoyDown 1 5 5 mkDefault) = onJoyDown 1 5 5 mkDefault :=
  ⟨rfl,
    (touch_single_session (onJoyDown 1 5 5 mkDefault) 2 0 0).1 rfl,
    ((touch_single_session (onJoyDown 1 5 5 mkDefault) 2 0 0).2
      (by decide)).1⟩

/-- Claim C7: for every held-key set the keyboard-derived vector has
magnitude at most 1; with forward (`w`) and right (`d`) held the vector is
approximately `(0.707, 0.707)`, not `(1, 1)`. -/
theorem keyboard_vector_spec (ks : Finset String) :
    magnitude (recalcKB ks) ≤ 1 ∧
    |(recalcKB {"w", "d"}).x - 0.707| < 0.001 ∧
    |(recalcKB {"w", "d"}).y - 0.707| < 0.001 := by
  obtain ⟨hl, hr⟩ := sqrt_two_bounds
  have hpos : (0:ℝ) < Real.sqrt 2 := by linarith
  have key1 : (0.706:ℝ) < 1 / Real.sqrt 2 := by
    rw [lt_div_iff₀ hpos]
    nlinarith
  have key2 : 1 / Real.sqrt 2 < 0.708 := by
    rw [div_lt_iff₀ hpos]
    nlinarith
  refine ⟨magnitude_le_one (recalcKB_magSq_le_one ks), ?_, ?_⟩
  all_goals
    rw [recalcKB_wd, normalize2_one_one]
    rw [abs_lt]
    constructor
  all_goals simp only
  all_goals linarith

/-- Claim C8: with every source contributing the zero vector, one
`update()` call scales the accumulator by `1 - smooth`: the returned axis
magnitude does not increase and each component keeps its sign (or reaches
zero), so repeated calls converge toward `(0, 0)` without oscillation. -/
theorem zero_input_convergence (m : Manager) (gps : GamepadList)
    (hsm : 0 ≤ m.smooth ∧ m.smooth ≤ 1)
    (ht : m.touch.x = 0 ∧ m.touch.y = 0)
    (hk : m.kb.x = 0 ∧ m.kb.y = 0)
    (hg : (pollGamepad gps m).gp.x = 0 ∧ (pollGamepad gps m).gp.y = 0) :
    magnitude ((updateM gps m).2).axis ≤ magnitude m.smoothed ∧
    |((updateM gps m).2).axis.x| ≤ |m.smoothed.x| ∧
    |((updateM gps m).2).axis.y| ≤ |m.smoothed.y| ∧
    (0 ≤ m.smoothed.x → 0 ≤ ((updateM gps m).2).axis.x) ∧
    (m.smoothed.x ≤ 0 → ((updateM gps m).2).axis.x ≤ 0) ∧
    (0 ≤ m.smoothed.y → 0 ≤ ((updateM gps m).2).axis.y) ∧
    (m.smoothed.y ≤ 0 → ((updateM gps m).2).axis.y ≤ 0) := by
  have hsel : selectAxis ⟨m.touch.x, m.touch.y⟩
      ⟨(pollGamepad gps m).gp.x, (pollGamepad gps m).gp.y⟩
      ⟨m.kb.x, m.kb.y⟩ = ⟨0, 0⟩ := by
    rw [ht.1, ht.2, hk.1, hk.2, hg.1, hg.2]
    exact selectAxis_zero
  have hax : ((updateM gps m).2).axis =
      ⟨m.smoothed.x * (1 - m.smooth), m.smoothed.y * (1 - m.smooth)⟩ := by
    show (⟨lerp m.smoothed.x (selectAxis ⟨m.touch.x, m.touch.y⟩
        ⟨(pollGamepad gps m).gp.x, (pollGamepad gps m).gp.y⟩
        ⟨m.kb.x, m.kb.y⟩).x (blendFactor m.smooth),
      lerp m.smoothed.y (selectAxis ⟨m.touch.x, m.touch.y⟩
        ⟨(pollGamepad gps m).gp.x, (pollGamepad gps m).gp.y⟩
        ⟨m.kb.x, m.kb.y⟩).y (blendFactor m.smooth)⟩ : Vec2) = _
    rw [hsel, blendFactor_eq]
    unfold lerp
    rw [clamp_eq_of_mem hsm.1 hsm.2]
    simp only [Vec2.mk.injEq]
    constructor <;> ring
  rw [hax]
  dsimp only
  obtain ⟨h0, h1⟩ := hsm
  refine ⟨?_, ?_, ?_, ?_, ?_, ?_, ?_⟩
  · unfold magnitude magSq
    dsimp only
    apply Real.sqrt_le_sqrt
    nlinarith [mul_nonneg (sq_nonneg m.smoothed.x)
        (mul_nonneg h0 (by linarith : (0:ℝ) ≤ 2 - m.smooth)),
      mul_nonneg (sq_nonneg m.smoothed.y)
        (mul_nonneg h0 (by linarith : (0:ℝ) ≤ 2 - m.smooth))]
  · show |m.smoothed.x * (1 - m.smooth)| ≤ |m.smoothed.x|
    rw [abs_mul, abs_of_nonneg (by linarith : (0:ℝ) ≤ 1 - m.smooth)]
    nlinarith [abs_nonneg m.smoothed.x]
  · show |m.smoothed.y * (1 - m.smooth)| ≤ |m.smoothed.y|
    rw [abs_mul, abs_of_nonneg (by linarith : (0:ℝ) ≤ 1 - m.smooth)]
    nlinarith [abs_nonneg m.smoothed.y]
  · intro hx
    exact mul_nonneg hx (by linarith)
  · intro hx
    nlinarith
  · intro hy
    exact mul_nonneg hy (by linarith)
  · intro hy
    nlinarith

/-- Witness for `zero_input_convergence` at the freshly constructed
manager with no gamepad API. -/
theorem zero_input_convergence_witness :
    magnitude ((updateM none mkDefault).2).axis ≤ magnitude mkDefault.smoothed :=
  (zero_input_convergence mkDefault none
    ⟨by norm_num [mkDefault, mkManager], by norm_num [mkDefault, mkManager]⟩
    ⟨rfl, rfl⟩ ⟨rfl, rfl⟩ ⟨rfl, rfl⟩).1

/-- Claim C9: `getState()` writes no manager field and no existing cell; the
snapshot axis is a freshly allocated cell distinct from the
internal one, holding a copy of its components, and writing through the
returned reference leaves the internal cell unchanged; `update()` returns
exactly `this.getState()` of the post-call state. -/
theorem getState_fresh_copy (m : HManager) (σ : Store)
    (hwf : m.axisAddr < σ.next) (mp : Manager) (gps : GamepadList) :
    (getStateH m σ).1 = m ∧
    (getStateH m σ).2.2.axisAddr ≠ m.axisAddr ∧
    (getStateH m σ).2.1.mem m.axisAddr = σ.mem m.axisAddr ∧
    (∀ v : Vec2, (((getStateH m σ).2.1.write (getStateH m σ).2.2.axisAddr v).mem
      m.axisAddr = σ.mem m.axisAddr)) ∧
    (getStateH m σ).2.1.mem (getStateH m σ).2.2.axisAddr =
      ⟨(σ.mem m.axisAddr).x, (σ.mem m.axisAddr).y⟩ ∧
    getStateS mp = (mp, getStateP mp) ∧
    (updateM gps mp).2 = getStateP (updateM gps mp).1 := by
  have hne : m.axisAddr ≠ σ.next := Nat.ne_of_lt hwf
  refine ⟨rfl, fun hEq => hne hEq.symm, ?_, ?_, ?_, rfl, rfl⟩
  · show (if m.axisAddr = σ.next then _ else σ.mem m.axisAddr) = σ.mem m.axisAddr
    rw [if_neg hne]
  · intro v
    show (if m.axisAddr = σ.next then v
      else if m.axisAddr = σ.next then _ else σ.mem m.axisAddr) = σ.mem m.axisAddr
    rw [if_neg hne, if_neg hne]
  · show (if σ.next = σ.next then _ else σ.mem σ.next) = _
    rw [if_pos rfl]

/-- Witness for `getState_fresh_copy` at a one-cell store. -/
theorem getState_fresh_copy_witness :
    (getStateH ⟨0, false, false⟩ ⟨1, fun _ => ⟨0, 0⟩⟩).2.2.axisAddr ≠ 0 :=
  (getState_fresh_copy ⟨0, false, false⟩ ⟨1, fun _ => ⟨0, 0⟩⟩
    (by norm_num) mkDefault none).2.1

/-- Claim C1 (code bug): `destroy()` on a touch-enabled manager removes the
keyboard listeners and the injected container (taking the joystick and
button elements and their listeners with it), and a second call is a
no-op; but the four window-level joystick listeners registered in
`_setupTouchUI` (`pointermove`/`pointerup`/`pointercancel`/`pointerleave`)
are never removed, and the injected `#touch-ui-styles` element also
remains, so resources registered by the manager do survive `destroy()`. -/
theorem destroy_leaves_window_pointer_listeners :
    (destroy (construct true)).listeners =
      [⟨.window, "pointermove", .joyMoveH⟩, ⟨.window, "pointerup", .joyUpH⟩,
       ⟨.window, "pointercancel", .joyUpH⟩, ⟨.window, "pointerleave", .joyUpH⟩] ∧
    (destroy (construct true)).listeners ≠ [] ∧
    (destroy (construct true)).uiAttached = false ∧
    (destroy (construct true)).styleAttached = true ∧
    destroy (destroy (construct true)) = destroy (construct true) ∧
    (destroy (construct false)).listeners = [] := by
  refine ⟨by decide, by decide, by decide, by decide, by decide, by decide⟩

end NeonInput
